import Mathlib

/-!
Verification development for two source files of the VLC media player:
`modules/gui/qt/medialibrary/mlbasemodel.cpp` (the Qt media-library list
model `MLBaseModel` and its cache loader `MLListCacheLoader`) and
`modules/video_output/win32/common.c` (Win32 video-output window
management).  The C++/C code is shallowly embedded below as executable Lean
definitions: pure computations become Lean functions, mutation becomes
explicit state passing, Qt signal emissions and OS calls become explicit
event/effect traces, and asynchronous task results are passed in as
explicit oracle arguments.  Theorems after the definitions settle the
specification claims about this code.
-/

namespace Vlc

/-! ### `MLListCacheLoader::loadItemsTask` (mlbasemodel.cpp, lines 683-738)

The ML-thread lambda of `loadItemsTask` sorts the requested row indexes,
partitions them into inclusive ranges, issues one `op->load` per range and
scatters the loaded items into the result vector `ctx.items`, which the
UI-thread lambda then hands to the callback. -/

/-- An inclusive index range `[low, high]`, the local `struct Range` of
`loadItemsTask`. -/
structure MLRange where
  low : Int
  high : Int
deriving DecidableEq, Repr

/-- The constant `MAX_DIFFERENCE` of `loadItemsTask`. -/
def MAX_DIFFERENCE : Int := 4

/-- The range-building loop of `loadItemsTask`: `[low, high]` is the back
of the `ranges` vector; each further sorted index is merged into it
(`ranges.back().high = index`) when `index - ranges.back().high <
MAX_DIFFERENCE`, otherwise a fresh single-index range is pushed. -/
def buildRangesAux (low high : Int) : List Int → List MLRange
  | [] => [⟨low, high⟩]
  | x :: xs =>
    if x - high < MAX_DIFFERENCE then buildRangesAux low x xs
    else ⟨low, high⟩ :: buildRangesAux x x xs

/-- `ranges.push_back(Range {sortedIndexes[0], sortedIndexes[0]})` followed
by the loop over all of `sortedIndexes` (its head is reprocessed, a no-op
merge since `sortedIndexes[0] - sortedIndexes[0] = 0 < MAX_DIFFERENCE`). -/
def buildRanges : List Int → List MLRange
  | [] => []
  | x :: xs => buildRangesAux x x (x :: xs)

/-- One pass of the inner scatter loop of `loadItemsTask` for a single
range: the requested `indexes` and the result slots (`ctx.items`) are
walked in lockstep; a request `targetIndex` falling inside `[low, high]`
receives `std::move(data.at(targetIndex - range.low))`, and the move
leaves that `data` slot empty (`unique_ptr` move semantics).  Returns the
updated result slots together with the remaining `data`. -/
def fillRange {α : Type} (low high : Int) :
    List Int → List (Option α) → List (Option α) →
    List (Option α) × List (Option α)
  | [], slots, data => (slots, data)
  | _ :: _, [], data => ([], data)
  | t :: rest, slot :: slots, data =>
    if low ≤ t ∧ t ≤ high then
      let v := data.getD (t - low).toNat none
      let r := fillRange low high rest slots (data.set (t - low).toNat none)
      (v :: r.1, r.2)
    else
      let r := fillRange low high rest slots data
      (slot :: r.1, r.2)

/-- Number of results requested for a range:
`queryParam.i_nbResults = range.high - range.low + 1`. -/
def MLRange.loadCount (r : MLRange) : Nat := (r.high - r.low + 1).toNat

/-- Processing of one range in `loadItemsTask`: the query is issued with
`queryParam.i_offset = range.low` and `queryParam.i_nbResults =
range.high - range.low + 1`, and the returned window fills the matching
request slots. `load` models `op->load(ml, &queryParam)` as a function of
the offset and result count. -/
def applyRange {α : Type} (load : Int → Nat → List α) (indexes : List Int)
    (items : List (Option α)) (r : MLRange) : List (Option α) :=
  (fillRange r.low r.high indexes items ((load r.low r.loadCount).map some)).1

/-- The ML-thread work of `MLListCacheLoader::loadItemsTask`: for an empty
request `ctx.items` stays empty; otherwise the indexes are sorted
(`std::sort`, modelled by insertion sort, which yields the same sorted
permutation of a list of integers), partitioned into ranges, `ctx.items`
is resized to `indexes.size()` (null slots), and each range's load is
scattered into the slots.  The returned list is the vector handed to the
UI-thread callback `cb(id, ctx.items)`. -/
def loadItemsTaskML {α : Type} (indexes : List Int)
    (load : Int → Nat → List α) : List (Option α) :=
  if indexes = [] then []
  else
    let sortedIndexes := indexes.insertionSort (· ≤ ·)
    let ranges := buildRanges sortedIndexes
    ranges.foldl (applyRange load indexes) (List.replicate indexes.length none)

/-! ### Lemmas about the range partition built by `loadItemsTask` -/

lemma buildRangesAux_head :
    ∀ (l : List Int) (low high : Int), List.Sorted (· ≤ ·) l →
    (∀ y ∈ l, high ≤ y) →
    ∃ h2 rest, buildRangesAux low high l = ⟨low, h2⟩ :: rest ∧ high ≤ h2 := by
  intro l
  induction l with
  | nil => intro low high _ _; exact ⟨high, [], rfl, le_refl _⟩
  | cons x xs ih =>
    intro low high hs hge
    rw [List.sorted_cons] at hs
    by_cases hc : x - high < MAX_DIFFERENCE
    · obtain ⟨h2, rest, heq, hle⟩ := ih low x hs.2 hs.1
      refine ⟨h2, rest, ?_, ?_⟩
      · simpa [buildRangesAux, hc] using heq
      · exact le_trans (hge x (List.mem_cons_self x xs)) hle
    · exact ⟨high, buildRangesAux x x xs, by simp [buildRangesAux, hc], le_refl _⟩

lemma buildRangesAux_covers :
    ∀ (l : List Int) (low high : Int), List.Sorted (· ≤ ·) l →
    (∀ y ∈ l, high ≤ y) → low ≤ high →
    ∀ y ∈ l, ∃ r ∈ buildRangesAux low high l, r.low ≤ y ∧ y ≤ r.high := by
  intro l
  induction l with
  | nil => intro _ _ _ _ _ y hy; cases hy
  | cons x xs ih =>
    intro low high hs hge hlh y hy
    rw [List.sorted_cons] at hs
    have hx : high ≤ x := hge x (List.mem_cons_self x xs)
    by_cases hc : x - high < MAX_DIFFERENCE
    · have heq : buildRangesAux low high (x :: xs) = buildRangesAux low x xs := by
        simp [buildRangesAux, hc]
      rw [heq]
      rcases List.mem_cons.mp hy with rfl | hy'
      · obtain ⟨h2, rest, heq2, hle⟩ := buildRangesAux_head xs low y hs.2 hs.1
        rw [heq2]
        exact ⟨⟨low, h2⟩, List.mem_cons_self _ _, le_trans hlh hx, hle⟩
      · exact ih low x hs.2 hs.1 (le_trans hlh hx) y hy'
    · have heq : buildRangesAux low high (x :: xs)
          = ⟨low, high⟩ :: buildRangesAux x x xs := by
        simp [buildRangesAux, hc]
      rw [heq]
      rcases List.mem_cons.mp hy with rfl | hy'
      · obtain ⟨h2, rest, heq2, hle⟩ := buildRangesAux_head xs y y hs.2 hs.1
        rw [heq2]
        exact ⟨⟨y, h2⟩, List.mem_cons_of_mem _ (List.mem_cons_self _ _),
          le_refl _, hle⟩
      · obtain ⟨r, hr, hb⟩ := ih x x hs.2 hs.1 (le_refl _) y hy'
        exact ⟨r, List.mem_cons_of_mem _ hr, hb⟩

lemma buildRangesAux_chain :
    ∀ (l : List Int) (low high : Int), List.Sorted (· ≤ ·) l →
    (∀ y ∈ l, high ≤ y) →
    List.Chain' (fun a b : MLRange => a.high + MAX_DIFFERENCE ≤ b.low)
      (buildRangesAux low high l) := by
  intro l
  induction l with
  | nil => intro low high _ _; exact List.chain'_singleton _
  | cons x xs ih =>
    intro low high hs hge
    rw [List.sorted_cons] at hs
    by_cases hc : x - high < MAX_DIFFERENCE
    · have heq : buildRangesAux low high (x :: xs) = buildRangesAux low x xs := by
        simp [buildRangesAux, hc]
      rw [heq]
      exact ih low x hs.2 hs.1
    · have heq : buildRangesAux low high (x :: xs)
          = ⟨low, high⟩ :: buildRangesAux x x xs := by
        simp [buildRangesAux, hc]
      rw [heq]
      obtain ⟨h2, rest, heq2, hle⟩ := buildRangesAux_head xs x x hs.2 hs.1
      rw [heq2, List.chain'_cons]
      constructor
      · show high + MAX_DIFFERENCE ≤ x
        simp only [MAX_DIFFERENCE] at hc ⊢
        omega
      · rw [← heq2]
        exact ih x x hs.2 hs.1

/-! ### Lemmas about the scatter loop of `loadItemsTask` -/

lemma fillRange_length {α : Type} (low high : Int) :
    ∀ (idxs : List Int) (slots data : List (Option α)),
    slots.length = idxs.length →
    (fillRange low high idxs slots data).1.length = idxs.length := by
  intro idxs
  induction idxs with
  | nil => intro slots data h; simpa [fillRange] using h
  | cons t rest ih =>
    intro slots data h
    cases slots with
    | nil => simp at h
    | cons slot slots' =>
      simp only [List.length_cons] at h
      by_cases hc : low ≤ t ∧ t ≤ high
      · simp only [fillRange, if_pos hc, List.length_cons]
        rw [ih slots' _ (by omega)]
      · simp only [fillRange, if_neg hc, List.length_cons]
        rw [ih slots' data (by omega)]

lemma fillRange_getD {α : Type} (low high : Int) (f : Int → α) :
    ∀ (idxs : List Int) (slots data : List (Option α)),
    slots.length = idxs.length → idxs.Nodup →
    (∀ t ∈ idxs, low ≤ t → t ≤ high →
        data.getD (t - low).toNat none = some (f t)) →
    ∀ i, i < idxs.length →
    (fillRange low high idxs slots data).1.getD i none =
      if low ≤ idxs.getD i 0 ∧ idxs.getD i 0 ≤ high then some (f (idxs.getD i 0))
      else slots.getD i none := by
  intro idxs
  induction idxs with
  | nil => intro _ _ _ _ _ i hi; simp at hi
  | cons t rest ih =>
    intro slots data hlen hnd hdata i hi
    cases slots with
    | nil => simp at hlen
    | cons slot slots' =>
      simp only [List.length_cons] at hlen
      rw [List.nodup_cons] at hnd
      cases i with
      | zero =>
        by_cases hc : low ≤ t ∧ t ≤ high
        · simp only [fillRange, if_pos hc, List.getD_cons_zero]
          exact hdata t (List.mem_cons_self _ _) hc.1 hc.2
        · simp only [fillRange, if_neg hc, List.getD_cons_zero]
      | succ j =>
        have hj : j < rest.length := by simpa using hi
        by_cases hc : low ≤ t ∧ t ≤ high
        · simp only [fillRange, if_pos hc, List.getD_cons_succ]
          rw [ih slots' (data.set (t - low).toNat none) (by omega) hnd.2 ?hd j hj]
          case hd =>
            intro t' ht' h1 h2
            have hnet : t' ≠ t := fun h => hnd.1 (h ▸ ht')
            have hne : (t' - low).toNat ≠ (t - low).toNat := by
              have hlt : low ≤ t := hc.1
              omega
            rw [List.getD_eq_getElem?_getD, List.getElem?_set_ne (Ne.symm hne),
              ← List.getD_eq_getElem?_getD]
            exact hdata t' (List.mem_cons_of_mem _ ht') h1 h2
        · simp only [fillRange, if_neg hc, List.getD_cons_succ]
          exact ih slots' data (by omega) hnd.2
            (fun t' ht' => hdata t' (List.mem_cons_of_mem _ ht')) j hj

lemma foldl_applyRange_length {α : Type} (load : Int → Nat → List α)
    (indexes : List Int) :
    ∀ (rs : List MLRange) (items : List (Option α)),
    items.length = indexes.length →
    (rs.foldl (applyRange load indexes) items).length = indexes.length := by
  intro rs
  induction rs with
  | nil => intro items h; simpa using h
  | cons r rs' ih =>
    intro items h
    simp only [List.foldl_cons]
    exact ih _ (fillRange_length _ _ _ _ _ h)

lemma foldl_applyRange_getD {α : Type} (load : Int → Nat → List α) (f : Int → α)
    (hload : ∀ off cnt, load off cnt
      = (List.range cnt).map (fun (k : Nat) => f (off + (k : Int))))
    (indexes : List Int) (hnd : indexes.Nodup) :
    ∀ (rs : List MLRange) (items : List (Option α)),
    items.length = indexes.length →
    ∀ i, i < indexes.length →
    (rs.foldl (applyRange load indexes) items).getD i none =
      if rs.any (fun r => decide (r.low ≤ indexes.getD i 0) &&
          decide (indexes.getD i 0 ≤ r.high)) = true
      then some (f (indexes.getD i 0)) else items.getD i none := by
  intro rs
  induction rs with
  | nil => intro items hlen i hi; simp
  | cons r rs' ih =>
    intro items hlen i hi
    simp only [List.foldl_cons]
    have hitems' : (applyRange load indexes items r).length = indexes.length :=
      fillRange_length _ _ _ _ _ hlen
    rw [ih _ hitems' i hi]
    have hfill := fillRange_getD r.low r.high f indexes items
      ((load r.low r.loadCount).map some) hlen hnd ?hd i hi
    case hd =>
      intro t ht h1 h2
      rw [hload]
      have hlt : (t - r.low).toNat < r.loadCount := by
        simp only [MLRange.loadCount]
        omega
      rw [List.getD_eq_getElem _ _ (by simpa using hlt)]
      simp only [List.getElem_map, List.getElem_range]
      have : r.low + ((t - r.low).toNat : Int) = t := by omega
      rw [this]
    rw [show applyRange load indexes items r
        = (fillRange r.low r.high indexes items
            ((load r.low r.loadCount).map some)).1 from rfl, hfill]
    simp only [List.any_cons, Bool.or_eq_true, Bool.and_eq_true, decide_eq_true_eq]
    by_cases hA : r.low ≤ indexes.getD i 0 ∧ indexes.getD i 0 ≤ r.high
    · by_cases hB : rs'.any (fun r => decide (r.low ≤ indexes.getD i 0) &&
          decide (indexes.getD i 0 ≤ r.high)) = true
      · rw [if_pos hB, if_pos (Or.inl hA)]
      · rw [if_neg hB, if_pos hA, if_pos (Or.inl hA)]
    · by_cases hB : rs'.any (fun r => decide (r.low ≤ indexes.getD i 0) &&
          decide (indexes.getD i 0 ≤ r.high)) = true
      · rw [if_pos hB, if_pos (Or.inr hB)]
      · rw [if_neg hB, if_neg hA, if_neg (by tauto)]

/-- Claim C1 (corrected; restricted to pairwise-distinct index requests).
Assuming `op->load` returns exactly one item per row of each requested
window (row `off + k` for slot `k`), the ML-thread work of
`MLListCacheLoader::loadItemsTask` on a duplicate-free index vector
delivers to the callback a vector with exactly `indexes.size()` slots whose
slot `i` holds the item loaded for row `indexes[i]`; for an empty index
vector the callback receives an empty vector.  Moreover every requested
index is covered by one of the ranges built from the sorted indexes, each
load is issued with offset `low` and result count `high - low + 1` (by
definition of `applyRange`), and successive ranges are separated by at
least `MAX_DIFFERENCE`, i.e. a new range is started exactly when the next
sorted index is `MAX_DIFFERENCE` or more above the current upper bound. -/
theorem loadItemsTask_scatter {α : Type} (indexes : List Int)
    (load : Int → Nat → List α) (f : Int → α)
    (hload : ∀ off cnt, load off cnt
      = (List.range cnt).map (fun (k : Nat) => f (off + (k : Int))))
    (hnd : indexes.Nodup) :
    loadItemsTaskML ([] : List Int) load = [] ∧
    (loadItemsTaskML indexes load).length = indexes.length ∧
    (∀ i, i < indexes.length →
      (loadItemsTaskML indexes load).getD i none = some (f (indexes.getD i 0))) ∧
    (∀ t ∈ indexes, ∃ r ∈ buildRanges (indexes.insertionSort (· ≤ ·)),
      r.low ≤ t ∧ t ≤ r.high) ∧
    List.Chain' (fun a b : MLRange => a.high + MAX_DIFFERENCE ≤ b.low)
      (buildRanges (indexes.insertionSort (· ≤ ·))) := by
  have hsorted : List.Sorted (· ≤ ·) (indexes.insertionSort (· ≤ ·)) :=
    List.sorted_insertionSort _ _
  have hperm : (indexes.insertionSort (· ≤ ·)).Perm indexes :=
    List.perm_insertionSort _ _
  have hcov : ∀ t ∈ indexes, ∃ r ∈ buildRanges (indexes.insertionSort (· ≤ ·)),
      r.low ≤ t ∧ t ≤ r.high := by
    intro t ht
    have ht' : t ∈ indexes.insertionSort (· ≤ ·) := hperm.mem_iff.mpr ht
    cases hs : indexes.insertionSort (· ≤ ·) with
    | nil => rw [hs] at ht'; cases ht'
    | cons x xs =>
      rw [hs] at ht' hsorted
      have hge : ∀ y ∈ x :: xs, x ≤ y := by
        intro y hy
        rcases List.mem_cons.mp hy with rfl | hy'
        · exact le_refl _
        · exact (List.sorted_cons.mp hsorted).1 y hy'
      exact buildRangesAux_covers (x :: xs) x x hsorted hge (le_refl _) t ht'
  refine ⟨rfl, ?_, ?_, hcov, ?_⟩
  · by_cases hemp : indexes = []
    · subst hemp; rfl
    · simp only [loadItemsTaskML, if_neg hemp]
      exact foldl_applyRange_length load indexes _ _ (by simp)
  · intro i hi
    have hemp : indexes ≠ [] := by
      intro h
      rw [h] at hi
      simp at hi
    simp only [loadItemsTaskML, if_neg hemp]
    rw [foldl_applyRange_getD load f hload indexes hnd _ _ (by simp) i hi]
    have hmem : indexes.getD i 0 ∈ indexes := by
      rw [List.getD_eq_getElem _ _ hi]
      exact List.getElem_mem hi
    obtain ⟨r, hr, hb1, hb2⟩ := hcov _ hmem
    rw [if_pos (List.any_eq_true.mpr ⟨r, hr,
      by simp only [Bool.and_eq_true, decide_eq_true_eq]; exact ⟨hb1, hb2⟩⟩)]
  · cases hs : indexes.insertionSort (· ≤ ·) with
    | nil => exact List.chain'_nil
    | cons x xs =>
      rw [hs] at hsorted
      have hge : ∀ y ∈ x :: xs, x ≤ y := by
        intro y hy
        rcases List.mem_cons.mp hy with rfl | hy'
        · exact le_refl _
        · exact (List.sorted_cons.mp hsorted).1 y hy'
      exact buildRangesAux_chain (x :: xs) x x hsorted hge

/-- Witness for claim C1's theorem at the concrete request `[1, 10]` with
the identity item-per-row loader. -/
theorem loadItemsTask_scatter_witness :
    loadItemsTaskML ([] : List Int)
      (fun off cnt => (List.range cnt).map (fun (k : Nat) => off + (k : Int))) = [] ∧
    (loadItemsTaskML [1, 10]
      (fun off cnt => (List.range cnt).map (fun (k : Nat) => off + (k : Int)))).length
      = ([1, 10] : List Int).length ∧
    (∀ i, i < ([1, 10] : List Int).length →
      (loadItemsTaskML [1, 10]
        (fun off cnt => (List.range cnt).map (fun (k : Nat) => off + (k : Int)))).getD i none
        = some ((fun t : Int => t) (([1, 10] : List Int).getD i 0))) ∧
    (∀ t ∈ ([1, 10] : List Int),
      ∃ r ∈ buildRanges (([1, 10] : List Int).insertionSort (· ≤ ·)),
        r.low ≤ t ∧ t ≤ r.high) ∧
    List.Chain' (fun a b : MLRange => a.high + MAX_DIFFERENCE ≤ b.low)
      (buildRanges (([1, 10] : List Int).insertionSort (· ≤ ·))) :=
  loadItemsTask_scatter [1, 10]
    (fun off cnt => (List.range cnt).map (fun (k : Nat) => off + (k : Int)))
    (fun t : Int => t) (fun _ _ => rfl) (by decide)

/-- Claim C1 counterexample: for the duplicated request `[0, 0]`, with a
loader returning exactly one item per requested row, the callback vector is
`[some 0, none]` — the second slot does not hold the item loaded for row
`indexes[1] = 0` (the `std::move` in the scatter loop empties the shared
data slot at the first occurrence), refuting the claim as stated for
requests with repeated indexes. -/
theorem loadItemsTask_duplicate_counterexample :
    loadItemsTaskML [0, 0]
      (fun off cnt => (List.range cnt).map (fun (k : Nat) => off + (k : Int)))
      = [some 0, none] ∧
    ¬ (∀ i, i < ([0, 0] : List Int).length →
        (loadItemsTaskML [0, 0]
          (fun off cnt => (List.range cnt).map (fun (k : Nat) => off + (k : Int)))).getD i none
          = some (([0, 0] : List Int).getD i 0)) := by
  constructor
  · decide
  · intro h
    exact absurd (h 1 (by decide)) (by decide)

/-! ### `MLBaseModel` state and operations (mlbasemodel.cpp)

The model's member state is embedded as a record; Qt signal emissions and
operations forwarded to the cache are recorded in an explicit event trace.
Virtual hooks (`nameToCriteria`, `cachable`) and asynchronous task results
are passed in as explicit arguments. -/

/-- `MLItemId` (an id plus a parent type tag). -/
structure MLItemId where
  id : Nat
  type : Nat
deriving DecidableEq, Repr

/-- An `MLItem` as far as this file observes it: `MLItem::getId()`. -/
structure MLItemRec where
  itemId : MLItemId
deriving DecidableEq, Repr

/-- Modelled from the spec: the sliding-window cache type `ListCache`
(`util/listcache.hpp`) is referenced by mlbasemodel.cpp but its definition
is not part of the excerpt.  Its state is modelled by the two counts it
reports (`queryCount` / `maximumCount`, `none` while the asynchronous
count has not yet been initialized) and the list of currently loaded items
visible to `ListCache::find`. -/
structure CacheState where
  queryCount : Option Nat
  maximumCount : Option Nat
  items : List MLItemRec
deriving DecidableEq, Repr

/-- Modelled from the spec: `MLListCache::COUNT_UNINITIALIZED` (aliased at
mlbasemodel.cpp line 39) is the cache's sentinel `ssize_t` value for a
count that has not been initialized yet, distinct from every real
(non-negative) count; modelled as the negative value -1. -/
def COUNT_UNINITIALIZED : Int := -1

/-- The `ssize_t` value returned by `m_cache->queryCount()`. -/
def CacheState.queryCountVal (c : CacheState) : Int :=
  match c.queryCount with
  | none => COUNT_UNINITIALIZED
  | some n => n

/-- The `ssize_t` value returned by `m_cache->maximumCount()`. -/
def CacheState.maximumCountVal (c : CacheState) : Int :=
  match c.maximumCount with
  | none => COUNT_UNINITIALIZED
  | some n => n

/-- The member state of `MLBaseModel`. -/
structure MLBaseModelState where
  sort_desc : Bool
  sort : Nat
  search_pattern : Option String
  limit : Nat
  offset : Nat
  parent : MLItemId
  mediaLib : Bool
  cachable : Bool
  cache : Option CacheState
  itemLoader : Bool
deriving DecidableEq, Repr

/-- Observable events of the model: emitted Qt signals and operations
forwarded to the cache or the loader. -/
inductive MLSignal where
  | beginResetModel
  | endResetModel
  | loadingChanged
  | parentIdChanged
  | sortOrderChanged
  | sortCriteriaChanged
  | limitChanged
  | offsetChanged
  | resetRequested
  | cacheUpdateItem (item : MLItemRec)
  | cacheDeleteItem (mlid : MLItemId)
  | cacheMoveRange (first last dest : Int)
  | cacheDeleteRange (first last : Int)
  | loadByIdRequested (mlid : MLItemId)
deriving DecidableEq, Repr

/-- A freshly constructed `MLListCache` right after
`std::make_unique<MLListCache>(...)` and `m_cache->initCount()`: both
counts still uninitialized, nothing loaded. -/
def freshCache : CacheState := ⟨none, none, []⟩

/-- `MLBaseModel::validateCache`: nothing happens when a cache exists or
the model is not cachable; otherwise a fresh cache is created,
`initCount` issued and `loadingChanged` emitted. -/
def validateCache (s : MLBaseModelState) : MLBaseModelState × List MLSignal :=
  match s.cache with
  | some _ => (s, [])
  | none =>
    if s.cachable then ({s with cache := some freshCache}, [MLSignal.loadingChanged])
    else (s, [])

/-- `MLBaseModel::resetCache`: `beginResetModel`, drop the cache,
`endResetModel`, then `validateCache`. -/
def resetCache (s : MLBaseModelState) : MLBaseModelState × List MLSignal :=
  let v := validateCache {s with cache := none}
  (v.1, MLSignal.beginResetModel :: MLSignal.endResetModel :: v.2)

/-- `MLBaseModel::setParentId`: unconditionally stores the parent, resets
the cache and emits `parentIdChanged`. -/
def setParentId (s : MLBaseModelState) (parentId : MLItemId) :
    MLBaseModelState × List MLSignal :=
  let r := resetCache {s with parent := parentId}
  (r.1, r.2 ++ [MLSignal.parentIdChanged])

/-- `MLBaseModel::setSearchPattern`: a zero-length pattern is replaced by
the null string; an unchanged pattern is a no-op, otherwise the pattern is
stored and the cache reset (no dedicated change signal). -/
def setSearchPattern (s : MLBaseModelState) (pattern : String) :
    MLBaseModelState × List MLSignal :=
  let patternToApply : Option String :=
    if pattern.length = 0 then none else some pattern
  if patternToApply = s.search_pattern then (s, [])
  else resetCache {s with search_pattern := patternToApply}

/-- `MLBaseModel::setSortOrder` (argument already reduced to
`desc = (order == Qt::SortOrder::DescendingOrder)`). -/
def setSortOrder (s : MLBaseModelState) (desc : Bool) :
    MLBaseModelState × List MLSignal :=
  if s.sort_desc = desc then (s, [])
  else
    let r := resetCache {s with sort_desc := desc}
    (r.1, r.2 ++ [MLSignal.sortOrderChanged])

/-- `MLBaseModel::setSortCriteria`; `nameToCriteria` is the subclass
virtual converting a criteria name to a `vlc_ml_sorting_criteria_t`. -/
def setSortCriteria (nameToCriteria : String → Nat) (s : MLBaseModelState)
    (criteria : String) : MLBaseModelState × List MLSignal :=
  let sort := nameToCriteria criteria
  if s.sort = sort then (s, [])
  else
    let r := resetCache {s with sort := sort}
    (r.1, r.2 ++ [MLSignal.sortCriteriaChanged])

/-- `MLBaseModel::setLimit`. -/
def setLimit (s : MLBaseModelState) (limit : Nat) :
    MLBaseModelState × List MLSignal :=
  if s.limit = limit then (s, [])
  else
    let r := resetCache {s with limit := limit}
    (r.1, r.2 ++ [MLSignal.limitChanged])

/-- `MLBaseModel::setOffset`. -/
def setOffset (s : MLBaseModelState) (offset : Nat) :
    MLBaseModelState × List MLSignal :=
  if s.offset = offset then (s, [])
  else
    let r := resetCache {s with offset := offset}
    (r.1, r.2 ++ [MLSignal.offsetChanged])

/-- `MLBaseModel::rowCount(parent)`: 0 without a cache or for a valid
parent index, otherwise the raw `m_cache->queryCount()` (an `int` after
implicit conversion). -/
def rowCount (s : MLBaseModelState) (parentValid : Bool) : Int :=
  match s.cache with
  | none => 0
  | some c => if parentValid then 0 else c.queryCountVal

/-- `MLBaseModel::getCount`: 0 without a cache or while the query count is
uninitialized, otherwise the count cast to `unsigned`. -/
def getCount (s : MLBaseModelState) : Nat :=
  match s.cache with
  | none => 0
  | some c =>
    if c.queryCountVal = COUNT_UNINITIALIZED then 0 else c.queryCountVal.toNat

/-- `MLBaseModel::getMaximumCount`: same shape for `maximumCount`. -/
def getMaximumCount (s : MLBaseModelState) : Nat :=
  match s.cache with
  | none => 0
  | some c =>
    if c.maximumCountVal = COUNT_UNINITIALIZED then 0
    else c.maximumCountVal.toNat

/-- `MLBaseModel::loading`:
`!(m_mediaLib && m_cache && (m_cache->queryCount() != COUNT_UNINITIALIZED))`. -/
def loading (s : MLBaseModelState) : Bool :=
  !(s.mediaLib && (match s.cache with
    | none => false
    | some c => c.queryCountVal != COUNT_UNINITIALIZED))

/-- `MLBaseModel::updateItemInCache`: without a cache only
`resetRequested` is emitted; with a cache, nothing happens unless an item
with the given id is found in the cache, in which case a by-id load is
issued whose callback (invoked only for a non-null result, see
`loadItemByIdUiCallback`) forwards the freshly loaded item to
`m_cache->updateItem`.  `loadResult` is the asynchronous
`op->loadItemById` outcome. -/
def updateItemInCache (s : MLBaseModelState) (mlid : MLItemId)
    (loadResult : Option MLItemRec) : MLBaseModelState × List MLSignal :=
  match s.cache with
  | none => (s, [MLSignal.resetRequested])
  | some c =>
    match c.items.find? (fun it => decide (it.itemId = mlid)) with
    | none => (s, [])
    | some _ =>
      let s1 := {s with itemLoader := true}
      match loadResult with
      | none => (s1, [MLSignal.loadByIdRequested mlid])
      | some it => (s1, [MLSignal.loadByIdRequested mlid, MLSignal.cacheUpdateItem it])

/-- `MLBaseModel::deleteItemInCache`: reset request without a cache,
otherwise forwarded to `m_cache->deleteItem`. -/
def deleteItemInCache (s : MLBaseModelState) (mlid : MLItemId) :
    MLBaseModelState × List MLSignal :=
  match s.cache with
  | none => (s, [MLSignal.resetRequested])
  | some _ => (s, [MLSignal.cacheDeleteItem mlid])

/-- `MLBaseModel::moveRangeInCache`: reset request without a cache,
otherwise forwarded to `m_cache->moveRange`. -/
def moveRangeInCache (s : MLBaseModelState) (first last dest : Int) :
    MLBaseModelState × List MLSignal :=
  match s.cache with
  | none => (s, [MLSignal.resetRequested])
  | some _ => (s, [MLSignal.cacheMoveRange first last dest])

/-- `MLBaseModel::deleteRangeInCache`: reset request without a cache,
otherwise forwarded to `m_cache->deleteRange`. -/
def deleteRangeInCache (s : MLBaseModelState) (first last : Int) :
    MLBaseModelState × List MLSignal :=
  match s.cache with
  | none => (s, [MLSignal.resetRequested])
  | some _ => (s, [MLSignal.cacheDeleteRange first last])

/-- `MLBaseModel::getData`, request side: with a non-callable JS callback
the function returns before issuing any load; otherwise `loadItems` is
called and the returned task id is stored into `*requestId`.  The result
is the stored request id (`none` when no load was issued). -/
def getDataRequest (callable : Bool) (newTaskId : Nat) : Option Nat :=
  if callable then some newTaskId else none

/-- The `ItemCallback` registered by `MLBaseModel::getData`: invoked with
a delivered task `id` and the loaded `items`, it returns without calling
the JS callback when no JS engine is available or `*requestId != id`;
otherwise the JS callback is called (its argument array, one role-data
entry per slot and empty entries for null items, is abstracted to the item
list itself).  `none` models "JS callback not invoked". -/
def getDataItemCallback (requestId : Nat) (jsEngineAvailable : Bool)
    (deliveredId : Nat) (items : List (Option MLItemRec)) :
    Option (List (Option MLItemRec)) :=
  if !jsEngineAvailable || requestId != deliveredId then none else some items

/-- The UI-thread lambda of `MLListCacheLoader::loadItemByIdTask`: the
callback `cb` is invoked exactly when the ML-thread lookup `ctx.item` is
non-null. -/
def loadItemByIdUiCallback {β : Type} (ctxItem : Option MLItemRec)
    (cb : MLItemRec → β) : Option β :=
  match ctxItem with
  | none => none
  | some it => some (cb it)

/-- `vlc_ml_query_params_t` as filled by `MLOp::getQueryParams`;
`psz_pattern = none` models a null pointer. -/
structure VlcMlQueryParams where
  psz_pattern : Option String
  i_nbResults : Nat
  i_offset : Nat
  i_sort : Nat
  b_desc : Bool
deriving DecidableEq, Repr

/-- `MLListCacheLoader::MLOp`: `m_searchPattern` is the byte array
obtained from `QString::toUtf8()`, null exactly when the source string was
null. -/
structure MLOp where
  parent : MLItemId
  searchPattern : Option String
  sort : Nat
  sortDesc : Bool
deriving DecidableEq, Repr

/-- `MLListCacheLoader::MLOp::getQueryParams(offset, limit)`
(mlbasemodel.cpp, lines 767-778). -/
def MLOp.getQueryParams (op : MLOp) (offset limit : Nat) : VlcMlQueryParams :=
  { psz_pattern := op.searchPattern
    i_nbResults := limit
    i_offset := offset
    i_sort := op.sort
    b_desc := op.sortDesc }

/-! ### Theorems about `MLBaseModel` -/

/-- Claim C2 (corrected): `rowCount` returns 0 when the model has no cache
or the given parent index is valid, and the cache's query count otherwise;
it is non-negative whenever the cache's query count has been initialized,
but it returns the negative sentinel `COUNT_UNINITIALIZED` itself in the
state where a cache exists whose count has not yet been initialized. -/
theorem rowCount_spec (s : MLBaseModelState) (parentValid : Bool) :
    (s.cache = none ∨ parentValid = true → rowCount s parentValid = 0) ∧
    (∀ c, s.cache = some c → parentValid = false →
      rowCount s parentValid = c.queryCountVal ∧
      (∀ n, c.queryCount = some n → 0 ≤ rowCount s parentValid) ∧
      (c.queryCount = none → rowCount s parentValid = COUNT_UNINITIALIZED)) := by
  constructor
  · rintro (hc | hp)
    · simp [rowCount, hc]
    · cases hcc : s.cache with
      | none => simp [rowCount, hcc]
      | some c => simp [rowCount, hcc, hp]
  · intro c hc hp
    refine ⟨by simp [rowCount, hc, hp], ?_, ?_⟩
    · intro n hn
      simp [rowCount, hc, hp, CacheState.queryCountVal, hn]
    · intro hn
      simp [rowCount, hc, hp, CacheState.queryCountVal, hn]

/-- Witness for claim C2's (corrected) theorem at a concrete state with an
initialized cache of 3 rows. -/
theorem rowCount_spec_witness :
    rowCount ⟨false, 0, none, 0, 0, ⟨0, 0⟩, true, true,
        some ⟨some 3, some 3, []⟩, false⟩ false = (3 : Int) := by
  have h := (rowCount_spec ⟨false, 0, none, 0, 0, ⟨0, 0⟩, true, true,
    some ⟨some 3, some 3, []⟩, false⟩ false).2 ⟨some 3, some 3, []⟩ rfl rfl
  exact h.1

/-- Claim C2 counterexample: in the model state where a cache exists whose
query count is still uninitialized and the parent index is invalid,
`rowCount` returns the sentinel `-1`, a negative value, refuting "rowCount
is non-negative in every model state". -/
theorem rowCount_negative_counterexample :
    rowCount ⟨false, 0, none, 0, 0, ⟨0, 0⟩, true, true,
      some ⟨none, none, []⟩, false⟩ false < 0 := by decide

/-- Claim C10 (confirmed): `getCount` and `getMaximumCount` never return
the `COUNT_UNINITIALIZED` sentinel: each returns 0 when the cache is
absent or the corresponding count is uninitialized and the cache's
(non-negative) count otherwise, and `loading()` is true exactly when the
media library is unset, the cache is absent, or the cache's query count is
uninitialized. -/
theorem counts_never_uninitialized (s : MLBaseModelState) :
    ((getCount s : Int) ≠ COUNT_UNINITIALIZED ∧
     (getMaximumCount s : Int) ≠ COUNT_UNINITIALIZED) ∧
    (s.cache = none → getCount s = 0 ∧ getMaximumCount s = 0) ∧
    (∀ c, s.cache = some c →
      (c.queryCount = none → getCount s = 0) ∧
      (∀ n, c.queryCount = some n → getCount s = n) ∧
      (c.maximumCount = none → getMaximumCount s = 0) ∧
      (∀ n, c.maximumCount = some n → getMaximumCount s = n)) ∧
    (loading s = true ↔ s.mediaLib = false ∨ s.cache = none ∨
      ∃ c, s.cache = some c ∧ c.queryCount = none) := by
  refine ⟨⟨?_, ?_⟩, ?_, ?_, ?_⟩
  · simp only [getCount]
    cases s.cache with
    | none => simp [COUNT_UNINITIALIZED]
    | some c =>
      split
      · simp [COUNT_UNINITIALIZED]
      · simp only [COUNT_UNINITIALIZED]
        omega
  · simp only [getMaximumCount]
    cases s.cache with
    | none => simp [COUNT_UNINITIALIZED]
    | some c =>
      split
      · simp [COUNT_UNINITIALIZED]
      · simp only [COUNT_UNINITIALIZED]
        omega
  · intro hc
    simp [getCount, getMaximumCount, hc]
  · intro c hc
    refine ⟨?_, ?_, ?_, ?_⟩
    · intro hn
      simp [getCount, hc, CacheState.queryCountVal, hn]
    · intro n hn
      simp [getCount, hc, CacheState.queryCountVal, hn, COUNT_UNINITIALIZED]
    · intro hn
      simp [getMaximumCount, hc, CacheState.maximumCountVal, hn]
    · intro n hn
      simp [getMaximumCount, hc, CacheState.maximumCountVal, hn,
        COUNT_UNINITIALIZED]
  · cases hm : s.mediaLib with
    | false => simp [loading, hm]
    | true =>
      cases hc : s.cache with
      | none => simp [loading, hm, hc]
      | some c =>
        cases hn : c.queryCount with
        | none =>
          simp [loading, hm, hc, CacheState.queryCountVal, hn]
        | some n =>
          simp [loading, hm, hc, CacheState.queryCountVal, hn,
            COUNT_UNINITIALIZED]

/-- Witness for claim C10's theorem at a concrete state with an
initialized cache. -/
theorem counts_never_uninitialized_witness :
    getCount ⟨false, 0, none, 0, 0, ⟨0, 0⟩, true, true,
      some ⟨some 7, some 9, []⟩, false⟩ = 7 := by
  have h := (counts_never_uninitialized ⟨false, 0, none, 0, 0, ⟨0, 0⟩, true,
    true, some ⟨some 7, some 9, []⟩, false⟩).2.2.1 ⟨some 7, some 9, []⟩ rfl
  exact h.2.1 7 rfl

/-- Claim C6 (corrected): each of the four cache mutation operations
emits only `resetRequested` and changes nothing else when the model has
no cache; with a cache, `deleteItemInCache`, `moveRangeInCache` and
`deleteRangeInCache` are forwarded to the corresponding cache operation
and request no reset; `updateItemInCache`, however, forwards to
`m_cache->updateItem` only when an item with the given id is currently in
the cache and the by-id reload produces an item — when the item is not
loaded it does nothing at all (still without requesting a reset). -/
theorem cacheMutation_spec (s : MLBaseModelState) (mlid : MLItemId)
    (res : Option MLItemRec) (first last dest : Int) :
    (s.cache = none →
      updateItemInCache s mlid res = (s, [MLSignal.resetRequested]) ∧
      deleteItemInCache s mlid = (s, [MLSignal.resetRequested]) ∧
      moveRangeInCache s first last dest = (s, [MLSignal.resetRequested]) ∧
      deleteRangeInCache s first last = (s, [MLSignal.resetRequested])) ∧
    (∀ c, s.cache = some c →
      deleteItemInCache s mlid = (s, [MLSignal.cacheDeleteItem mlid]) ∧
      moveRangeInCache s first last dest
        = (s, [MLSignal.cacheMoveRange first last dest]) ∧
      deleteRangeInCache s first last
        = (s, [MLSignal.cacheDeleteRange first last]) ∧
      MLSignal.resetRequested ∉ (updateItemInCache s mlid res).2 ∧
      (∀ it0 it, c.items.find? (fun x => decide (x.itemId = mlid)) = some it0 →
        res = some it →
        MLSignal.cacheUpdateItem it ∈ (updateItemInCache s mlid res).2) ∧
      (c.items.find? (fun x => decide (x.itemId = mlid)) = none →
        updateItemInCache s mlid res = (s, []))) := by
  constructor
  · intro hc
    refine ⟨?_, ?_, ?_, ?_⟩ <;>
      simp [updateItemInCache, deleteItemInCache, moveRangeInCache,
        deleteRangeInCache, hc]
  · intro c hc
    refine ⟨?_, ?_, ?_, ?_, ?_, ?_⟩
    · simp [deleteItemInCache, hc]
    · simp [moveRangeInCache, hc]
    · simp [deleteRangeInCache, hc]
    · simp only [updateItemInCache, hc]
      cases hf : c.items.find? (fun x => decide (x.itemId = mlid)) with
      | none => simp
      | some it0 =>
        cases res with
        | none => simp
        | some it => simp
    · intro it0 it hf hres
      simp [updateItemInCache, hc, hf, hres]
    · intro hf
      simp [updateItemInCache, hc, hf]

/-- Witness for claim C6's (corrected) theorem at a concrete cached state
holding the item being updated. -/
theorem cacheMutation_spec_witness :
    MLSignal.cacheUpdateItem ⟨⟨5, 0⟩⟩ ∈
      (updateItemInCache
        ⟨false, 0, none, 0, 0, ⟨0, 0⟩, true, true,
          some ⟨some 1, some 1, [⟨⟨5, 0⟩⟩]⟩, false⟩
        ⟨5, 0⟩ (some ⟨⟨5, 0⟩⟩)).2 := by
  have h := (cacheMutation_spec
    ⟨false, 0, none, 0, 0, ⟨0, 0⟩, true, true,
      some ⟨some 1, some 1, [⟨⟨5, 0⟩⟩]⟩, false⟩
    ⟨5, 0⟩ (some ⟨⟨5, 0⟩⟩) 0 0 0).2 ⟨some 1, some 1, [⟨⟨5, 0⟩⟩]⟩ rfl
  exact h.2.2.2.2.1 ⟨⟨5, 0⟩⟩ ⟨⟨5, 0⟩⟩ (by decide) rfl

/-- Claim C6 counterexample: with a cache present but the item with id
`(5, 0)` not loaded in it, `updateItemInCache` forwards nothing to the
cache (its event trace is empty, in particular no `updateItem`), refuting
"when a cache exists, the operation is forwarded to the corresponding
cache operation". -/
theorem updateItemInCache_not_forwarded_counterexample :
    updateItemInCache
        ⟨false, 0, none, 0, 0, ⟨0, 0⟩, true, true,
          some ⟨some 0, some 0, []⟩, false⟩
        ⟨5, 0⟩ (some ⟨⟨5, 0⟩⟩)
      = (⟨false, 0, none, 0, 0, ⟨0, 0⟩, true, true,
          some ⟨some 0, some 0, []⟩, false⟩, []) ∧
    (⟨false, 0, none, 0, 0, ⟨0, 0⟩, true, true,
        some ⟨some 0, some 0, []⟩, false⟩ : MLBaseModelState).cache
      ≠ none := by decide

/-- Claim C3 (confirmed): when the JS callback is not callable, `getData`
issues no load request; otherwise the request id stored by `getData` is
exactly the task id returned by the issued load request, and the
registered item callback invokes the JS callback exactly when a JS engine
is available and the delivered task id equals that stored request id —
any other delivered task id is dropped. -/
theorem getData_taskId_filter (callable : Bool) (newTaskId : Nat) :
    (callable = false → getDataRequest callable newTaskId = none) ∧
    (callable = true → getDataRequest callable newTaskId = some newTaskId) ∧
    (∀ rid, getDataRequest callable newTaskId = some rid →
      rid = newTaskId ∧
      ∀ (js : Bool) (delivered : Nat) (items : List (Option MLItemRec)),
        ((getDataItemCallback rid js delivered items).isSome ↔
          js = true ∧ delivered = rid)) := by
  refine ⟨?_, ?_, ?_⟩
  · intro h
    simp [getDataRequest, h]
  · intro h
    simp [getDataRequest, h]
  · intro rid hrid
    have hcall : callable = true := by
      by_contra h
      simp [getDataRequest, Bool.eq_false_iff.mpr h] at hrid
    have : rid = newTaskId := by
      simp [getDataRequest, hcall] at hrid
      omega
    refine ⟨this, ?_⟩
    intro js delivered items
    cases js with
    | false => simp [getDataItemCallback]
    | true =>
      by_cases hd : delivered = rid
      · simp [getDataItemCallback, hd]
      · have hd2 : rid ≠ delivered := fun h => hd h.symm
        simp [getDataItemCallback, hd, hd2]

/-- Witness for claim C3's theorem: a callable request with task id 42 is
delivered to its callback only under id 42. -/
theorem getData_taskId_filter_witness :
    (getDataItemCallback 42 true 42 []).isSome ↔ True ∧ (42 : Nat) = 42 := by
  have h := ((getData_taskId_filter true 42).2.2 42 rfl).2 true 42 []
  simpa using h

/-- Claim C7 (confirmed): the UI-thread callback of
`MLListCacheLoader::loadItemByIdTask` invokes its callback if and only if
the media-library lookup produced a non-null item; on a failed load the
callback is never invoked (whereas the by-index-set load of
`loadItemsTaskML` always delivers a full-size vector, with null slots
where items failed). -/
theorem loadItemById_callback_iff {β : Type} (res : Option MLItemRec)
    (cb : MLItemRec → β) :
    (loadItemByIdUiCallback res cb = none ↔ res = none) ∧
    (∀ it, res = some it → loadItemByIdUiCallback res cb = some (cb it)) := by
  constructor
  · cases res with
    | none => simp [loadItemByIdUiCallback]
    | some it => simp [loadItemByIdUiCallback]
  · intro it h
    subst h
    rfl

/-- Witness for claim C7's theorem at a concrete successful and a failed
lookup. -/
theorem loadItemById_callback_iff_witness :
    ((loadItemByIdUiCallback (some ⟨⟨1, 0⟩⟩) (fun it => it.itemId) = none ↔
        (some ⟨⟨1, 0⟩⟩ : Option MLItemRec) = none) ∧
      (∀ it, (some ⟨⟨1, 0⟩⟩ : Option MLItemRec) = some it →
        loadItemByIdUiCallback (some ⟨⟨1, 0⟩⟩) (fun it => it.itemId)
          = some it.itemId)) ∧
    (loadItemByIdUiCallback (none : Option MLItemRec) (fun it => it.itemId)
      = none ↔ (none : Option MLItemRec) = none) :=
  ⟨loadItemById_callback_iff (some ⟨⟨1, 0⟩⟩) (fun it => it.itemId),
    (loadItemById_callback_iff (none : Option MLItemRec)
      (fun it => it.itemId)).1⟩

/-- Claim C8 (confirmed): `setSearchPattern` stores the null string for a
zero-length pattern (and the pattern itself otherwise, also across the
unchanged-value early return), and `MLOp::getQueryParams` produces a null
`psz_pattern` exactly when the stored pattern is null, while
`i_nbResults`, `i_offset`, `i_sort` and `b_desc` equal the requested
limit, offset, sort criteria and descending flag. -/
theorem searchPattern_null_and_queryParams :
    (∀ (s : MLBaseModelState) (pattern : String),
      (setSearchPattern s pattern).1.search_pattern
        = (if pattern.length = 0 then none else some pattern)) ∧
    (∀ (op : MLOp) (offset limit : Nat),
      ((op.getQueryParams offset limit).psz_pattern = none ↔
        op.searchPattern = none) ∧
      (op.getQueryParams offset limit).i_nbResults = limit ∧
      (op.getQueryParams offset limit).i_offset = offset ∧
      (op.getQueryParams offset limit).i_sort = op.sort ∧
      (op.getQueryParams offset limit).b_desc = op.sortDesc) := by
  constructor
  · intro s pattern
    by_cases h : (if pattern.length = 0 then (none : Option String)
        else some pattern) = s.search_pattern
    · simp only [setSearchPattern, if_pos h]
      exact h.symm
    · simp only [setSearchPattern, if_neg h, resetCache, validateCache]
      by_cases hca : s.cachable <;> simp [hca]
  · intro op offset limit
    exact ⟨Iff.rfl, rfl, rfl, rfl, rfl⟩

/-- Claim C9 (confirmed): applying `setSortOrder`, `setSortCriteria`,
`setSearchPattern`, `setLimit` or `setOffset` with the currently-stored
value leaves the state unchanged and emits nothing; `setParentId`, by
contrast, resets the cache (a fresh cache is installed when the model is
cachable) and emits `parentIdChanged` even for the currently-stored
parent id. -/
theorem setters_identity_and_parentId_resets (s : MLBaseModelState)
    (nameToCriteria : String → Nat) (criteria pattern : String) :
    setSortOrder s s.sort_desc = (s, []) ∧
    (nameToCriteria criteria = s.sort →
      setSortCriteria nameToCriteria s criteria = (s, [])) ∧
    ((if pattern.length = 0 then (none : Option String) else some pattern)
        = s.search_pattern →
      setSearchPattern s pattern = (s, [])) ∧
    setLimit s s.limit = (s, []) ∧
    setOffset s s.offset = (s, []) ∧
    (setParentId s s.parent).1.cache
      = (if s.cachable then some freshCache else none) ∧
    MLSignal.parentIdChanged ∈ (setParentId s s.parent).2 ∧
    MLSignal.beginResetModel ∈ (setParentId s s.parent).2 := by
  refine ⟨?_, ?_, ?_, ?_, ?_, ?_, ?_, ?_⟩
  · simp [setSortOrder]
  · intro h
    simp [setSortCriteria, h]
  · intro h
    simp [setSearchPattern, h]
  · simp [setLimit]
  · simp [setOffset]
  · have hp : ({s with parent := s.parent} : MLBaseModelState) = s := rfl
    simp only [setParentId, hp, resetCache, validateCache]
    by_cases hca : s.cachable <;> simp [hca]
  · have hp : ({s with parent := s.parent} : MLBaseModelState) = s := rfl
    simp only [setParentId, hp, resetCache, validateCache]
    by_cases hca : s.cachable <;> simp [hca]
  · have hp : ({s with parent := s.parent} : MLBaseModelState) = s := rfl
    simp only [setParentId, hp, resetCache, validateCache]
    by_cases hca : s.cachable <;> simp [hca]

/-- Witness for claim C9's theorem at a concrete state: re-applying the
stored sort criteria is the identity, while re-applying the stored parent
id still emits `parentIdChanged`. -/
theorem setters_identity_witness :
    setSortCriteria (fun _ => 3)
        ⟨false, 3, none, 0, 0, ⟨0, 0⟩, true, true,
          some ⟨some 1, some 1, []⟩, false⟩ "album" =
      (⟨false, 3, none, 0, 0, ⟨0, 0⟩, true, true,
        some ⟨some 1, some 1, []⟩, false⟩, []) ∧
    MLSignal.parentIdChanged ∈
      (setParentId
        ⟨false, 3, none, 0, 0, ⟨0, 0⟩, true, true,
          some ⟨some 1, some 1, []⟩, false⟩ ⟨0, 0⟩).2 := by
  have h := setters_identity_and_parentId_resets
    ⟨false, 3, none, 0, 0, ⟨0, 0⟩, true, true,
      some ⟨some 1, some 1, []⟩, false⟩ (fun _ => 3) "album" ""
  exact ⟨h.2.1 rfl, h.2.2.2.2.2.2.1⟩

/-! ### Win32 video-output window management (common.c)

`UpdateRects` and the fullscreen switch of `CommonControl` are embedded
for the desktop build (`!VLC_WINSTORE_APP`, no module-specific
`MODULE_NAME_IS_*` branch taken).  OS calls and the event-thread queries
are passed in as an environment record / recorded as effects. -/

/-- A Win32 `RECT`. -/
structure WinRect where
  left : Int
  top : Int
  right : Int
  bottom : Int
deriving DecidableEq, Repr

/-- A `vout_display_place_t` as produced by `vout_display_PlacePicture`. -/
structure WinPlace where
  x : Int
  y : Int
  width : Int
  height : Int
deriving DecidableEq, Repr

/-- The fields of `vout_display_sys_win32_t` observed by the embedded
functions.  `parent_window` and the window handles are modelled by whether
they are non-null. -/
structure Win32Sys where
  b_windowless : Bool
  parent_window : Bool
  hparent : Bool
  hfswnd : Bool
  rect_dest : WinRect
  rect_dest_changed : Bool
  is_first_placement : Bool
  is_on_top : Bool
deriving DecidableEq, Repr

/-- Environment of one `UpdateRects` call: the results of
`sys->pf_GetRect` (`none` models failure of `GetClientRect`),
`ClientToScreen`, `EventThreadUpdateWindowPosition` (whether the window
moved or resized since the previous observation) and
`vout_display_PlacePicture`. -/
structure UpdateRectsEnv where
  getRect : Option WinRect
  point : Int × Int
  movedOrResized : Bool
  place : WinPlace
deriving DecidableEq, Repr

/-- OS-visible effects of the embedded common.c functions. -/
inductive WinEffect where
  | updateSourceAndPlace
  | setVideoWindowPos (x y w h : Int) (showWindow : Bool)
  | thumbnailClip
  | setWindowStyle (fullscreen : Bool)
  | setWindowPosMonitor
  | showMaximized
  | reparentToFullscreenWindow
  | hideTopLevelParent
  | setForeground
  | reparentToHostParent
  | showTopLevelParent
  | setForegroundParent
  | hideFullscreenWindow
  | restorePlacement
  | showNormal
deriving DecidableEq, Repr

/-- The tail of `UpdateRects` after the early-return check: reposition the
video window (not in windowless mode; the first placement also shows it
and clears `is_first_placement`), recompute `rect_dest` from the window
origin and the picture placement, set `rect_dest_changed` when it
differs from the previous value, and update the taskbar thumbnail clip. -/
def updateRectsApply (env : UpdateRectsEnv) (sys : Win32Sys)
    (point : Int × Int) : Win32Sys × List WinEffect :=
  let place := env.place
  let step1 : Win32Sys × List WinEffect :=
    if sys.b_windowless then (sys, [])
    else ({sys with is_first_placement := false},
      [WinEffect.updateSourceAndPlace,
       WinEffect.setVideoWindowPos place.x place.y place.width place.height
         sys.is_first_placement])
  let newDest : WinRect :=
    { left := point.1 + place.x
      top := point.2 + place.y
      right := point.1 + place.x + place.width
      bottom := point.2 + place.y + place.height }
  ({step1.1 with
      rect_dest := newDest
      rect_dest_changed := step1.1.rect_dest_changed
        || decide (¬ sys.rect_dest = newDest)},
   step1.2 ++ [WinEffect.thumbnailClip])

/-- `UpdateRects` (common.c, lines 130-246, desktop build): in windowless
mode the window rectangle comes from the source dimensions and
`moved_or_resized` is false, otherwise a failing `GetClientRect` returns
early and `moved_or_resized` comes from the event thread; a non-forced
call where nothing moved or resized returns early, and otherwise the
placement is applied. -/
def UpdateRects (env : UpdateRectsEnv) (sys : Win32Sys) (is_forced : Bool) :
    Win32Sys × List WinEffect :=
  if sys.b_windowless then
    if is_forced then updateRectsApply env sys (0, 0) else (sys, [])
  else
    match env.getRect with
    | none => (sys, [])
    | some _ =>
      if !is_forced && !env.movedOrResized then (sys, [])
      else updateRectsApply env sys env.point

/-- Modelled from the spec: the VLC return code for success
(`vlc_common.h`, not part of the excerpt). -/
def VLC_SUCCESS : Int := 0

/-- Modelled from the spec: the generic VLC error return code
(`vlc_common.h`, not part of the excerpt); any non-zero return of
`CommonControlSetFullscreen` is treated as failure by `CommonControl`. -/
def VLC_EGENERIC : Int := -1

/-- `CommonControlSetFullscreen` (common.c, lines 349-435, desktop build):
fails with `VLC_EGENERIC` when the vout is embedded in a host-provided
parent window (`sys->parent_window` non-null), succeeds trivially in
windowless mode, and otherwise saves the placement, switches the window
style, repositions/reparents/shows the windows as required by the
direction of the switch, and succeeds.  `getMonitorInfoOk` is the result
of `GetMonitorInfo`. -/
def CommonControlSetFullscreen (sys : Win32Sys) (is_fullscreen : Bool)
    (getMonitorInfoOk : Bool) : Int × List WinEffect :=
  if sys.parent_window then (VLC_EGENERIC, [])
  else if sys.b_windowless then (VLC_SUCCESS, [])
  else
    let effs : List WinEffect :=
      if is_fullscreen then
        [WinEffect.setWindowStyle true] ++
        (if sys.hparent then
          (if getMonitorInfoOk then [WinEffect.setWindowPosMonitor] else [])
         else [WinEffect.showMaximized]) ++
        (if sys.hparent then
          [WinEffect.reparentToFullscreenWindow, WinEffect.hideTopLevelParent]
         else []) ++
        [WinEffect.setForeground]
      else
        [WinEffect.setWindowStyle false] ++
        (if sys.hparent then
          [WinEffect.reparentToHostParent, WinEffect.showTopLevelParent,
           WinEffect.setForegroundParent, WinEffect.hideFullscreenWindow]
         else [WinEffect.restorePlacement, WinEffect.showNormal])
    (VLC_SUCCESS, effs)

/-- The `VOUT_DISPLAY_CHANGE_FULLSCREEN` case of `CommonControl`
(common.c, lines 498-504): a failing `CommonControlSetFullscreen` yields
`VLC_EGENERIC` without a rect update; otherwise the rects are updated
(non-forced) and `VLC_SUCCESS` is returned. -/
def CommonControlChangeFullscreen (env : UpdateRectsEnv) (sys : Win32Sys)
    (fs : Bool) (getMonitorInfoOk : Bool) : Int × Win32Sys × List WinEffect :=
  let r := CommonControlSetFullscreen sys fs getMonitorInfoOk
  if r.1 = 0 then
    let u := UpdateRects env sys false
    (VLC_SUCCESS, u.1, r.2 ++ u.2)
  else (VLC_EGENERIC, sys, r.2)

/-- Claim C4 (confirmed): every non-forced `UpdateRects` call in which the
window geometry has neither moved nor resized since the previous
observation returns early — the video window is not repositioned and the
state (in particular `rect_dest`, `rect_dest_changed` and
`is_first_placement`) is left unchanged; in windowless mode every
non-forced call returns early this way. -/
theorem updateRects_early_return (env : UpdateRectsEnv) (sys : Win32Sys)
    (h : sys.b_windowless = true ∨ env.movedOrResized = false) :
    UpdateRects env sys false = (sys, []) := by
  cases hw : sys.b_windowless with
  | true => simp [UpdateRects, hw]
  | false =>
    have hm : env.movedOrResized = false := by
      rcases h with h | h
      · rw [hw] at h; cases h
      · exact h
    cases hg : env.getRect with
    | none => simp [UpdateRects, hw, hg]
    | some r => simp [UpdateRects, hw, hg, hm]

/-- Witness for claim C4's theorem at a concrete quiescent non-windowless
state. -/
theorem updateRects_early_return_witness :
    UpdateRects
        ⟨some ⟨0, 0, 100, 50⟩, (10, 20), false, ⟨0, 0, 100, 50⟩⟩
        ⟨false, false, true, true, ⟨1, 2, 3, 4⟩, false, true, false⟩ false
      = (⟨false, false, true, true, ⟨1, 2, 3, 4⟩, false, true, false⟩, []) :=
  updateRects_early_return
    ⟨some ⟨0, 0, 100, 50⟩, (10, 20), false, ⟨0, 0, 100, 50⟩⟩
    ⟨false, false, true, true, ⟨1, 2, 3, 4⟩, false, true, false⟩
    (Or.inr rfl)

/-- Claim C5 (confirmed): the fullscreen change through `CommonControl`
returns `VLC_EGENERIC` without updating the rects exactly when the
fullscreen switch fails, which happens precisely when the vout is
embedded in a host-provided parent window; with no parent window, a
windowless display succeeds trivially (`VLC_SUCCESS`, no window touched,
state unchanged), and otherwise the window style and placement change is
applied and `VLC_SUCCESS` is returned together with a (non-forced) rect
update. -/
theorem commonControl_fullscreen_spec (env : UpdateRectsEnv) (sys : Win32Sys)
    (fs getMonitorInfoOk : Bool) :
    ((CommonControlChangeFullscreen env sys fs getMonitorInfoOk).1
        = VLC_EGENERIC ↔ sys.parent_window = true) ∧
    (sys.parent_window = true →
      CommonControlChangeFullscreen env sys fs getMonitorInfoOk
        = (VLC_EGENERIC, sys, [])) ∧
    (sys.parent_window = false → sys.b_windowless = true →
      CommonControlChangeFullscreen env sys fs getMonitorInfoOk
        = (VLC_SUCCESS, sys, [])) ∧
    (sys.parent_window = false → sys.b_windowless = false →
      (CommonControlChangeFullscreen env sys fs getMonitorInfoOk).1
          = VLC_SUCCESS ∧
      WinEffect.setWindowStyle fs
        ∈ (CommonControlChangeFullscreen env sys fs getMonitorInfoOk).2.2 ∧
      (CommonControlChangeFullscreen env sys fs getMonitorInfoOk).2.1
        = (UpdateRects env sys false).1 ∧
      (CommonControlChangeFullscreen env sys fs getMonitorInfoOk).2.2
        = (CommonControlSetFullscreen sys fs getMonitorInfoOk).2
          ++ (UpdateRects env sys false).2) := by
  by_cases hp : sys.parent_window = true
  · refine ⟨?_, ?_, ?_, ?_⟩
    · simp [CommonControlChangeFullscreen, CommonControlSetFullscreen, hp,
        VLC_EGENERIC, VLC_SUCCESS]
    · intro _
      simp [CommonControlChangeFullscreen, CommonControlSetFullscreen, hp,
        VLC_EGENERIC, VLC_SUCCESS]
    · intro h _
      rw [hp] at h; cases h
    · intro h _
      rw [hp] at h; cases h
  · have hp' : sys.parent_window = false := by
      cases h : sys.parent_window
      · rfl
      · exact absurd h hp
    by_cases hw : sys.b_windowless = true
    · refine ⟨?_, ?_, ?_, ?_⟩
      · have hu : UpdateRects env sys false = (sys, []) :=
          updateRects_early_return env sys (Or.inl hw)
        simp [CommonControlChangeFullscreen, CommonControlSetFullscreen, hp',
          hw, hu, VLC_EGENERIC, VLC_SUCCESS]
      · intro h
        rw [hp'] at h; cases h
      · intro _ _
        have hu : UpdateRects env sys false = (sys, []) :=
          updateRects_early_return env sys (Or.inl hw)
        simp [CommonControlChangeFullscreen, CommonControlSetFullscreen, hp',
          hw, hu, VLC_EGENERIC, VLC_SUCCESS]
      · intro _ h
        rw [hw] at h; cases h
    · have hw' : sys.b_windowless = false := by
        cases h : sys.b_windowless
        · rfl
        · exact absurd h hw
      refine ⟨?_, ?_, ?_, ?_⟩
      · simp only [CommonControlChangeFullscreen, CommonControlSetFullscreen,
          hp', hw', VLC_EGENERIC, VLC_SUCCESS]
        cases fs <;> cases sys.hparent <;> cases getMonitorInfoOk <;> simp
      · intro h
        rw [hp'] at h; cases h
      · intro _ h
        rw [hw'] at h; cases h
      · intro _ _
        refine ⟨?_, ?_, ?_, ?_⟩ <;>
        · simp only [CommonControlChangeFullscreen, CommonControlSetFullscreen,
            hp', hw', VLC_EGENERIC, VLC_SUCCESS]
          cases fs <;> cases sys.hparent <;> cases getMonitorInfoOk <;> simp
/-- Witness for claim C5's theorem at a concrete embedded-parent state
(fullscreen request refused) combined with the non-windowless success
case. -/
theorem commonControl_fullscreen_spec_witness :
    CommonControlChangeFullscreen
        ⟨some ⟨0, 0, 10, 10⟩, (0, 0), false, ⟨0, 0, 10, 10⟩⟩
        ⟨false, true, true, true, ⟨0, 0, 0, 0⟩, false, true, false⟩
        true true
      = (VLC_EGENERIC,
         ⟨false, true, true, true, ⟨0, 0, 0, 0⟩, false, true, false⟩, []) :=
  (commonControl_fullscreen_spec
    ⟨some ⟨0, 0, 10, 10⟩, (0, 0), false, ⟨0, 0, 10, 10⟩⟩
    ⟨false, true, true, true, ⟨0, 0, 0, 0⟩, false, true, false⟩
    true true).2.1 rfl

end Vlc
